import Mathlib

/-
  Verification of the `reducer` library (src/index.js): a case-dispatch
  table bound to a reducing function, plus synchronous and asynchronous
  action factories.

  The JavaScript code is shallowly embedded.  JS values are the inductive
  `JVal`; plain objects are ordered association lists of fields (JS objects
  have unique keys in insertion order).  Function values stored inside JS
  objects are defunctionalised as `JFun`: arbitrary user functions are
  opaque tags interpreted by an environment `Env`, and the three handler
  closures built by `getDefaultAsyncCase` are dedicated codes whose bodies
  are transcribed in `applyFun`.  Errors thrown by the library are values
  of `JsErr`, carrying the error kind of the specification taxonomy and
  the message of the `throw new Error(...)` site.  Mutation of a reducer
  instance (`this.cases = ...`) is modelled by returning an updated
  `Reducer` record.
-/

namespace ReducerSpec

/-- Defunctionalised JS function values that can sit inside a JS object.
`tag n` is an arbitrary user-supplied function, interpreted by an `Env`;
`pending`, `success` and `failure` are the three handler closures produced
by `getDefaultAsyncCase`, carrying the three captured state-flag names. -/
inductive JFun where
  | tag (n : Nat)
  | pending (s0 s1 s2 : String)
  | success (s0 s1 s2 : String)
  | failure (s0 s1 s2 : String)
deriving DecidableEq, Repr

/-- JS runtime values.  Plain objects are ordered lists of fields
(unique keys, insertion order, as in a JS object). -/
inductive JVal where
  | undefined
  | null
  | bool (b : Bool)
  | num (n : Int)
  | str (s : String)
  | arr (elems : List JVal)
  | obj (fields : List (String × JVal))
  | func (f : JFun)

/-- Interpretation of opaque user functions (binary application; a unary
JS call passes `undefined` as the absent second argument). -/
abbrev Env := Nat → JVal → JVal → JVal

/-- lodash `isPlainObject`: true exactly for plain objects. -/
def isPlainObject : JVal → Bool
  | .obj _ => true
  | _ => false

/-- lodash `isObjectLike`: non-null values of typeof object
(plain objects and arrays here; functions and primitives excluded). -/
def isObjectLike : JVal → Bool
  | .obj _ => true
  | .arr _ => true
  | _ => false

/-- lodash `isUndefined`. -/
def isUndefined : JVal → Bool
  | .undefined => true
  | _ => false

/-- lodash `isString`. -/
def isString : JVal → Bool
  | .str _ => true
  | _ => false

/-- lodash `isFunction`. -/
def isFunction : JVal → Bool
  | .func _ => true
  | _ => false

/-- JS truthiness (the model has no NaN; `num` is an integer). -/
def truthy : JVal → Bool
  | .undefined => false
  | .null => false
  | .bool b => b
  | .num n => n != 0
  | .str s => s != ""
  | .arr _ => true
  | .obj _ => true
  | .func _ => true

/-- JS strict equality `v === k` against a string key: only a string
value can be strictly equal to a string. -/
def strictEqStr : JVal → String → Bool
  | .str s, k => s == k
  | _, _ => false

/-- First-match lookup in a field list (JS property read on an object;
keys are unique in a real JS object, so first match is the match). -/
def lookupField : List (String × JVal) → String → Option JVal
  | [], _ => none
  | (k, v) :: rest, k2 => if k = k2 then some v else lookupField rest k2

/-- The own enumerable string-keyed properties of a value, as enumerated
by `for..in` and copied by object spread: an object yields its fields, an
array its index-keyed elements, a string its index-keyed characters, and
every other value nothing. -/
def ownFields : JVal → List (String × JVal)
  | .obj fields => fields
  | .arr elems => elems.enum.map (fun p => (toString p.1, p.2))
  | .str s => s.data.enum.map (fun p => (toString p.1, .str (String.singleton p.2)))
  | _ => []

/-- Own-property lookup (`none` when the key is absent). -/
def getOwn (v : JVal) (k : String) : Option JVal :=
  lookupField (ownFields v) k

/-- JS property access `v[k]`: `undefined` when the key is absent. -/
def getField (v : JVal) (k : String) : JVal :=
  (getOwn v k).getD .undefined

/-- JS property assignment semantics inside an object literal: an
existing key keeps its position and gets the new value, a new key is
appended at the end. -/
def setKey : List (String × JVal) → String → JVal → List (String × JVal)
  | [], k, v => [(k, v)]
  | (k1, v1) :: rest, k, v =>
      if k1 = k then (k, v) :: rest else (k1, v1) :: setKey rest k v

/-- Assign a list of key-value pairs in order onto a field list (the
tail of an object literal after some spreads). -/
def insertAll (l : List (String × JVal)) (kvs : List (String × JVal)) :
    List (String × JVal) :=
  kvs.foldl (fun acc kv => setKey acc kv.1 kv.2) l

/-- A JS object literal `{k1: v1, ..., kn: vn}` (duplicate keys collapse,
the last assignment winning, as in JS). -/
def mkObj (kvs : List (String × JVal)) : JVal :=
  .obj (insertAll [] kvs)

/-- A JS object literal `{...state, k1: v1, ..., kn: vn}`. -/
def spreadWith (state : JVal) (kvs : List (String × JVal)) : JVal :=
  .obj (insertAll (insertAll [] (ownFields state)) kvs)

/-- A JS object literal `{...a, ...b}`: fields of `b` override fields
of `a`. -/
def objSpread2 (a b : JVal) : JVal :=
  .obj (insertAll (insertAll [] (ownFields a)) (ownFields b))

/-- Application of a defunctionalised function value.  The bodies of
`pending`, `success` and `failure` are the three arrow functions of
`getDefaultAsyncCase` in src/index.js; a default parameter fires when the
corresponding argument is `undefined`, exactly as in JS. -/
def applyFun (env : Env) : JFun → JVal → JVal → JVal
  | .tag n, a, b => env n a b
  | .pending s0 s1 s2, stArg, _ =>
      let state := if isUndefined stArg then .obj [] else stArg
      spreadWith state [(s0, .bool true), (s1, .bool false), (s2, .bool false)]
  | .success s0 s1 s2, stArg, plArg =>
      let state := if isUndefined stArg then .obj [] else stArg
      let payload := if isUndefined plArg then .null else plArg
      spreadWith state
        [(s0, .bool false), (s1, .bool true), (s2, .bool false), ("payload", payload)]
  | .failure s0 s1 s2, stArg, erArg =>
      let state := if isUndefined stArg then .obj [] else stArg
      let error := if isUndefined erArg then .null else erArg
      spreadWith state
        [(s0, .bool false), (s1, .bool false), (s2, .bool true), ("error", error)]

/-- `getDefaultAsyncCase(type, typeSuccess, typeFailure, states)` of
src/index.js.  The claims only exercise `states` at ordered triples of
flag-name strings, so the parameter is embedded at that type; `states.1`,
`states.2.1`, `states.2.2` are `states[0]`, `states[1]`, `states[2]`. -/
def getDefaultAsyncCase (type typeSuccess typeFailure : String)
    (states : String × String × String) : JVal :=
  mkObj
    [(type, .func (.pending states.1 states.2.1 states.2.2)),
     (typeSuccess, .func (.success states.1 states.2.1 states.2.2)),
     (typeFailure, .func (.failure states.1 states.2.1 states.2.2))]

/-- The error taxonomy of the specification. -/
inductive ErrKind where
  | typeKind
  | missingArgument
  | missingField
  | notCallable
deriving DecidableEq, Repr

/-- A thrown error: its taxonomy kind and the message of the
`throw new Error(...)` site. -/
structure JsErr where
  kind : ErrKind
  msg : String
deriving DecidableEq, Repr

/-- A reducer instance: `this.initialState` and `this.cases`. -/
structure Reducer where
  initialState : JVal
  cases : JVal

/-- The `Reducer` constructor of src/index.js.  A default parameter
fires when the argument is `undefined`. -/
def Reducer.init (initialStateArg casesArg : JVal) : Except JsErr Reducer :=
  let initialState := if isUndefined initialStateArg then .obj [] else initialStateArg
  let cases := if isUndefined casesArg then .obj [] else casesArg
  if !isPlainObject initialState then
    .error ⟨.typeKind, "Reducer Init - A reducer initial state MUST be an object."⟩
  else if !isPlainObject cases then
    .error ⟨.typeKind, "Reducer Init - Reducer cases MUST be an object."⟩
  else
    .ok ⟨initialState, cases⟩

/-- The `for (const i in this.cases)` loop of `bindReducer`: scan the own
fields in order; at the first key strictly equal to `action.type`, call
that field's value on `(state, action)` and return its result (the
`hasOwnProperty` guard is always true for own fields).  The second
component of the result records the keys whose handlers were invoked. -/
def runCases (env : Env) :
    List (String × JVal) → JVal → JVal → Except JsErr JVal × List String
  | [], state, _ => (.ok state, [])
  | (k, v) :: rest, state, action =>
      if strictEqStr (getField action "type") k then
        match v with
        | .func f => (.ok (applyFun env f state action), [k])
        | _ => (.error ⟨.notCallable, "this.cases i is not a function"⟩, [])
      else runCases env rest state action

/-- The dispatch function returned by `bindReducer()` in src/index.js,
applied to `(state, action)`.  The second component of the result is the
list of case keys whose handlers were invoked during the call. -/
def bindReducer (env : Env) (r : Reducer) (stateArg action : JVal) :
    Except JsErr JVal × List String :=
  let state := if isUndefined stateArg then r.initialState else stateArg
  if !isPlainObject state then
    (.error ⟨.typeKind, "Reducer Runtime - State must be a plain object."⟩, [])
  else if isUndefined action then
    (.error ⟨.missingArgument, "Reducer Runtime - No action provided."⟩, [])
  else if !isPlainObject action then
    (.error ⟨.typeKind, "Reducer Runtime - Action must be a plain object."⟩, [])
  else if !truthy (getField action "type") then
    (.error ⟨.missingField, "Reducer Runtime - No action type provided."⟩, [])
  else
    runCases env (ownFields r.cases) state action

/-- `createAction(type)` of src/index.js.  The returned action
constructor is a Lean function, since nothing stores it back into a JS
object. -/
def createAction (type : JVal) : Except JsErr (JVal → JVal) :=
  if !isString type then
    .error ⟨.typeKind, "Reducer Action Creator - Type must be a string."⟩
  else
    .ok (fun payloadArg =>
      let payload := if isUndefined payloadArg then .null else payloadArg
      mkObj [("type", type), ("payload", payload)])

/-- The string carried by a string value (only used under an `isString`
guard). -/
def strVal : JVal → String
  | .str s => s
  | _ => ""

/-- Call a JS function value (only used under an `isFunction` guard, so
the non-function fallback is unreachable in the embedded code). -/
def callF (env : Env) (f : JVal) (a b : JVal) : JVal :=
  match f with
  | .func g => applyFun env g a b
  | _ => .undefined

/-- The action record built by the constructor returned from
`createAsyncAction`: `{types, promise, payload}`.  Its `promise` field is
the `innerPromise` closure, which can throw. -/
structure AsyncAction where
  types : List String
  promise : JVal → Except JsErr JVal
  payload : JVal

/-- The action constructor returned by `createAsyncAction`: the closure
`(payload = null) => ({types, promise, payload})` of src/index.js, whose
`promise` field is the `innerPromise` closure validating its `client`
argument at call time.  It captures the wrapped promise and the base
type name `t` (with `typeSuccess` and `typeFailure` derived from it). -/
def asyncCreator (env : Env) (promise : JVal) (t : String) (payloadArg : JVal) :
    AsyncAction :=
  let payload := if isUndefined payloadArg then .null else payloadArg
  { types := [t, t ++ "_SUCCESS", t ++ "_FAILURE"]
    promise := fun client =>
      if !isFunction client && !isObjectLike client then
        .error ⟨.typeKind,
          "Reducer Async Action Promise - Client must either be a function or a class."⟩
      else
        .ok (callF env promise client payload)
    payload := payload }

/-- `createAsyncAction(type, promise, states = null)` of src/index.js.
`states? = none` models the `null` default (`if (states)` is then falsy);
`some` of a triple models a supplied array of three flag names.  The
mutation `this.cases = {...getDefaultAsyncCase(...), ...this.cases}` is
modelled by returning the updated `Reducer` next to the returned action
constructor. -/
def createAsyncAction (env : Env) (r : Reducer) (type promise : JVal)
    (states? : Option (String × String × String)) :
    Except JsErr (Reducer × (JVal → AsyncAction)) :=
  if !isString type then
    .error ⟨.typeKind, "Reducer Async Action Creator - Type must be a string."⟩
  else if !isFunction promise then
    .error ⟨.typeKind, "Reducer Async Action Creator - Promise must be a function."⟩
  else
    let t := strVal type
    let typeSuccess := t ++ "_SUCCESS"
    let typeFailure := t ++ "_FAILURE"
    let cases2 :=
      match states? with
      | some st => objSpread2 (getDefaultAsyncCase t typeSuccess typeFailure st) r.cases
      | none => r.cases
    .ok ({ r with cases := cases2 }, asyncCreator env promise t)

/-- A concrete environment for closed instances: every opaque user
function returns `undefined`. -/
def env0 : Env := fun _ _ _ => JVal.undefined

/-! ### Helper lemmas about field lists -/

theorem lookupField_setKey (l : List (String × JVal)) (k k2 : String) (v : JVal) :
    lookupField (setKey l k v) k2 = if k = k2 then some v else lookupField l k2 := by
  induction l with
  | nil => simp [setKey, lookupField]
  | cons hd tl ih =>
    obtain ⟨k1, v1⟩ := hd
    by_cases h1 : k1 = k
    · subst h1
      by_cases hk : k1 = k2 <;> simp [setKey, lookupField, hk]
    · by_cases h2 : k1 = k2
      · subst h2
        have hk : ¬ k = k1 := fun hh => h1 hh.symm
        simp [setKey, lookupField, h1, hk]
      · simp [setKey, lookupField, h1, h2, ih]

theorem lookupField_eq_none (l : List (String × JVal)) (k : String)
    (h : k ∉ l.map Prod.fst) : lookupField l k = none := by
  induction l with
  | nil => rfl
  | cons hd tl ih =>
    obtain ⟨k1, v1⟩ := hd
    simp only [List.map_cons, List.mem_cons] at h
    push_neg at h
    have hne : ¬ k1 = k := fun hh => h.1 hh.symm
    simp [lookupField, hne, ih h.2]

theorem insertAll_cons (a : List (String × JVal)) (k : String) (v : JVal)
    (tl : List (String × JVal)) :
    insertAll a ((k, v) :: tl) = insertAll (setKey a k v) tl := rfl

theorem lookupField_insertAll (b : List (String × JVal)) :
    ∀ (a : List (String × JVal)) (k : String), (b.map Prod.fst).Nodup →
    lookupField (insertAll a b) k =
      match lookupField b k with
      | some v => some v
      | none => lookupField a k := by
  induction b with
  | nil => intro a k _; rfl
  | cons hd tl ih =>
    intro a k hnd
    obtain ⟨k1, v1⟩ := hd
    simp only [List.map_cons, List.nodup_cons] at hnd
    rw [insertAll_cons, ih (setKey a k1 v1) k hnd.2]
    by_cases h1 : k1 = k
    · subst h1
      have : lookupField tl k1 = none := lookupField_eq_none tl k1 hnd.1
      simp [lookupField, this, lookupField_setKey]
    · simp [lookupField, h1, lookupField_setKey]

theorem lookupField_insertAll_nil (sf : List (String × JVal)) (k : String)
    (h : (sf.map Prod.fst).Nodup) :
    lookupField (insertAll [] sf) k = lookupField sf k := by
  rw [lookupField_insertAll sf [] k h]
  cases hl : lookupField sf k <;> simp [lookupField]

theorem map_fst_setKey (l : List (String × JVal)) (k : String) (v : JVal) :
    (setKey l k v).map Prod.fst =
      if k ∈ l.map Prod.fst then l.map Prod.fst else l.map Prod.fst ++ [k] := by
  induction l with
  | nil => simp [setKey]
  | cons hd tl ih =>
    obtain ⟨k1, v1⟩ := hd
    by_cases h1 : k1 = k
    · subst h1; simp [setKey]
    · have hne : ¬ k = k1 := fun hh => h1 hh.symm
      by_cases h2 : k ∈ tl.map Prod.fst <;> simp [setKey, h1, hne, h2, ih]

theorem nodup_map_fst_setKey (l : List (String × JVal)) (k : String) (v : JVal)
    (h : (l.map Prod.fst).Nodup) : ((setKey l k v).map Prod.fst).Nodup := by
  rw [map_fst_setKey]
  by_cases hm : k ∈ l.map Prod.fst
  · simpa [hm] using h
  · simp only [hm, if_false]
    simp [List.nodup_append, h, hm]

theorem nodup_map_fst_insertAll (b : List (String × JVal)) :
    ∀ a : List (String × JVal), (a.map Prod.fst).Nodup →
    ((insertAll a b).map Prod.fst).Nodup := by
  induction b with
  | nil => intro a h; exact h
  | cons hd tl ih =>
    intro a h
    rw [insertAll_cons]
    exact ih _ (nodup_map_fst_setKey a hd.1 hd.2 h)

/-! ### Distinctness of the derived async type names -/

theorem ne_append_of_ne_empty (t s : String) (hs : s ≠ "") : t ≠ t ++ s := by
  intro h
  have h2 := congrArg String.length h
  rw [String.length_append] at h2
  have : s.length = 0 := by omega
  apply hs
  apply String.ext
  have := congrArg String.data h
  rw [String.data_append] at this
  have h3 : t.data ++ ([] : List Char) = t.data ++ s.data := by simpa using this
  have h4 := List.append_cancel_left h3
  simp [← h4]

theorem append_ne_append_of_ne (t a b : String) (hab : a ≠ b) : t ++ a ≠ t ++ b := by
  intro h
  apply hab
  apply String.ext
  have := congrArg String.data h
  rw [String.data_append, String.data_append] at this
  exact List.append_cancel_left this

theorem type_ne_typeSuccess (t : String) : t ≠ t ++ "_SUCCESS" :=
  ne_append_of_ne_empty t "_SUCCESS" (by decide)

theorem type_ne_typeFailure (t : String) : t ≠ t ++ "_FAILURE" :=
  ne_append_of_ne_empty t "_FAILURE" (by decide)

theorem typeSuccess_ne_typeFailure (t : String) : t ++ "_SUCCESS" ≠ t ++ "_FAILURE" :=
  append_ne_append_of_ne t "_SUCCESS" "_FAILURE" (by decide)

/-! ### Behaviour of the dispatch loop -/

theorem runCases_found (env : Env) (cf : List (String × JVal)) (state action : JVal)
    (t : String) (htype : getField action "type" = .str t)
    (hnd : (cf.map Prod.fst).Nodup) (h : JFun)
    (hmem : (t, JVal.func h) ∈ cf) :
    runCases env cf state action = (.ok (applyFun env h state action), [t]) := by
  induction cf with
  | nil => cases hmem
  | cons hd tl ih =>
    obtain ⟨k, v⟩ := hd
    simp only [List.map_cons, List.nodup_cons] at hnd
    rcases List.mem_cons.mp hmem with heq | hmem2
    · obtain ⟨hk, hv⟩ := Prod.mk.inj heq.symm
      subst hk
      subst hv
      simp [runCases, htype, strictEqStr]
    · have htmem : t ∈ tl.map Prod.fst := List.mem_map.mpr ⟨(t, .func h), hmem2, rfl⟩
      have hk : ¬ t = k := fun hh => hnd.1 (hh ▸ htmem)
      have hne : strictEqStr (getField action "type") k = false := by
        rw [htype]; simp [strictEqStr]; exact hk
      simp [runCases, hne, ih hnd.2 hmem2]

theorem runCases_nomatch (env : Env) (cf : List (String × JVal)) (state action : JVal)
    (t : String) (htype : getField action "type" = .str t)
    (hnone : ∀ kv ∈ cf, kv.1 ≠ t) :
    runCases env cf state action = (.ok state, []) := by
  induction cf with
  | nil => rfl
  | cons hd tl ih =>
    obtain ⟨k, v⟩ := hd
    have hk : k ≠ t := hnone (k, v) (List.mem_cons_self _ _)
    have hne : strictEqStr (getField action "type") k = false := by
      rw [htype]; simp [strictEqStr]; exact fun hh => hk hh.symm
    have ihr := ih (fun kv hkv => hnone kv (List.mem_cons_of_mem _ hkv))
    simp [runCases, hne, ihr]

/-- On a plain-object state and a plain-object action whose `type` field
is a nonempty string, the dispatch function reduces to the case-scan
loop. -/
theorem bindReducer_eq_runCases (env : Env) (r : Reducer)
    (sf af cf : List (String × JVal)) (t : String)
    (hc : r.cases = .obj cf)
    (hat : lookupField af "type" = some (.str t)) (ht : t ≠ "") :
    bindReducer env r (.obj sf) (.obj af) = runCases env cf (.obj sf) (.obj af) := by
  have htype : getField (JVal.obj af) "type" = .str t := by
    simp [getField, getOwn, ownFields, hat]
  have htr : truthy (getField (JVal.obj af) "type") = true := by
    rw [htype]; simp [truthy]; exact ht
  simp [bindReducer, isPlainObject, isUndefined, htr, hc, ownFields]

/-- Claim C1: for every plain-record state, plain-record action with a
truthy string `type`, and case table: when the table has an own key equal
to `action.type`, dispatch returns the result of invoking that key's
handler on `(state, action)` and invokes exactly that one handler; when
no own key equals `action.type`, dispatch returns the state unchanged and
invokes no handler. -/
theorem C1_dispatch (env : Env) (r : Reducer) (sf af cf : List (String × JVal))
    (t : String)
    (hc : r.cases = .obj cf) (hnd : (cf.map Prod.fst).Nodup)
    (hat : lookupField af "type" = some (.str t)) (ht : t ≠ "") :
    (∀ h : JFun, (t, JVal.func h) ∈ cf →
       bindReducer env r (.obj sf) (.obj af)
         = (.ok (applyFun env h (.obj sf) (.obj af)), [t])) ∧
    ((∀ kv ∈ cf, kv.1 ≠ t) →
       bindReducer env r (.obj sf) (.obj af) = (.ok (.obj sf), [])) := by
  have htype : getField (JVal.obj af) "type" = .str t := by
    simp [getField, getOwn, ownFields, hat]
  have hval := bindReducer_eq_runCases env r sf af cf t hc hat ht
  constructor
  · intro h hmem
    rw [hval]
    exact runCases_found env cf _ _ t htype hnd h hmem
  · intro hnone
    rw [hval]
    exact runCases_nomatch env cf _ _ t htype hnone

/-- Closed instance of `C1_dispatch`: a one-case table hit by a matching
action, and missed by a non-matching one. -/
theorem C1_dispatch_witness :
    bindReducer env0 ⟨.obj [], .obj [("A", .func (.tag 0))]⟩ (.obj [])
        (.obj [("type", .str "A")])
      = (.ok JVal.undefined, ["A"]) ∧
    bindReducer env0 ⟨.obj [], .obj [("A", .func (.tag 0))]⟩ (.obj [])
        (.obj [("type", .str "B")])
      = (.ok (.obj []), []) := by
  constructor
  · exact (C1_dispatch env0 ⟨.obj [], .obj [("A", .func (.tag 0))]⟩ []
      [("type", .str "A")] [("A", .func (.tag 0))] "A" rfl (by simp) (by simp [lookupField])
      (by decide)).1 (.tag 0) (by simp)
  · exact (C1_dispatch env0 ⟨.obj [], .obj [("A", .func (.tag 0))]⟩ []
      [("type", .str "B")] [("A", .func (.tag 0))] "B" rfl (by simp) (by simp [lookupField])
      (by decide)).2 (by simp)

/-- Claim C2: the dispatch function first replaces an omitted/undefined
state by the instance's `initialState`; then a non-plain-record state
fails with the `TypeKind` error, an undefined action with the
`MissingArgument` error, a defined non-plain-record action with the
`TypeKind` error, and a falsy `action.type` (empty string, null,
undefined, 0, false) with the `MissingField` error, in that order. -/
theorem C2_validation (env : Env) (r : Reducer) :
    (∀ a, bindReducer env r .undefined a = bindReducer env r r.initialState a) ∧
    (∀ s a, isUndefined s = false → isPlainObject s = false →
       bindReducer env r s a
         = (.error ⟨.typeKind, "Reducer Runtime - State must be a plain object."⟩, [])) ∧
    (∀ s, isPlainObject s = true →
       bindReducer env r s .undefined
         = (.error ⟨.missingArgument, "Reducer Runtime - No action provided."⟩, [])) ∧
    (∀ s a, isPlainObject s = true → isUndefined a = false → isPlainObject a = false →
       bindReducer env r s a
         = (.error ⟨.typeKind, "Reducer Runtime - Action must be a plain object."⟩, [])) ∧
    (∀ s af, isPlainObject s = true →
       getField (.obj af) "type"
         ∈ ([.undefined, .null, .str "", .num 0, .bool false] : List JVal) →
       bindReducer env r s (.obj af)
         = (.error ⟨.missingField, "Reducer Runtime - No action type provided."⟩, [])) := by
  refine ⟨fun a => ?_, fun s a h1 h2 => ?_, fun s hs => ?_, fun s a hs h1 h2 => ?_,
    fun s af hs hmem => ?_⟩
  · simp [bindReducer, isUndefined]
  · simp [bindReducer, h1, h2]
  · rcases s with _ | _ | b | n | st | el | fs | f <;> simp [isPlainObject] at hs
    simp [bindReducer, isUndefined, isPlainObject]
  · rcases s with _ | _ | b | n | st | el | fs | f <;> simp [isPlainObject] at hs
    rcases a with _ | _ | b2 | n2 | st2 | el2 | fs2 | f2
    · exact absurd h1 (by simp [isUndefined])
    · simp [bindReducer, isUndefined, isPlainObject]
    · simp [bindReducer, isUndefined, isPlainObject]
    · simp [bindReducer, isUndefined, isPlainObject]
    · simp [bindReducer, isUndefined, isPlainObject]
    · simp [bindReducer, isUndefined, isPlainObject]
    · exact absurd h2 (by simp [isPlainObject])
    · simp [bindReducer, isUndefined, isPlainObject]
  · rcases s with _ | _ | b | n | st | el | fs | f <;> simp [isPlainObject] at hs
    have htr : truthy (getField (.obj af) "type") = false := by
      simp only [List.mem_cons, List.not_mem_nil, or_false] at hmem
      rcases hmem with h | h | h | h | h <;> rw [h] <;> rfl
    simp [bindReducer, isUndefined, isPlainObject, htr]

/-- A concrete empty reducer instance for closed witnesses. -/
def red0 : Reducer := ⟨.obj [], .obj []⟩

/-- Closed instances of `C2_validation`: each validation step fired on a
concrete input. -/
theorem C2_validation_witness :
    bindReducer env0 red0 .undefined (.obj [])
      = bindReducer env0 red0 (.obj []) (.obj []) ∧
    bindReducer env0 red0 (.num 3) (.obj [("type", .str "A")])
      = (.error ⟨.typeKind, "Reducer Runtime - State must be a plain object."⟩, []) ∧
    bindReducer env0 red0 (.obj []) .undefined
      = (.error ⟨.missingArgument, "Reducer Runtime - No action provided."⟩, []) ∧
    bindReducer env0 red0 (.obj []) .null
      = (.error ⟨.typeKind, "Reducer Runtime - Action must be a plain object."⟩, []) ∧
    bindReducer env0 red0 (.obj []) (.obj [("payload", .obj [])])
      = (.error ⟨.missingField, "Reducer Runtime - No action type provided."⟩, []) :=
  ⟨(C2_validation env0 red0).1 (.obj []),
   (C2_validation env0 red0).2.1 (.num 3) (.obj [("type", .str "A")]) rfl rfl,
   (C2_validation env0 red0).2.2.1 (.obj []) rfl,
   (C2_validation env0 red0).2.2.2.1 (.obj []) .null rfl rfl rfl,
   (C2_validation env0 red0).2.2.2.2 (.obj []) [("payload", .obj [])] rfl
     (by simp [getField, getOwn, ownFields, lookupField])⟩

/-- Claim C7: a reducer instance's `initialState` and `cases` are always
plain records: construction fails with a `TypeKind` error when a supplied
argument is not a plain record, defaults absent arguments to empty
records, and `createAsyncAction` (the only operation changing `cases`)
preserves the invariant, leaving `initialState` untouched. -/
theorem C7_invariant :
    (∀ i c, isUndefined i = false → isPlainObject i = false →
       Reducer.init i c
         = .error ⟨.typeKind, "Reducer Init - A reducer initial state MUST be an object."⟩) ∧
    (∀ i c, isPlainObject (if isUndefined i then .obj [] else i) = true →
       isUndefined c = false → isPlainObject c = false →
       Reducer.init i c
         = .error ⟨.typeKind, "Reducer Init - Reducer cases MUST be an object."⟩) ∧
    (Reducer.init .undefined .undefined = .ok ⟨.obj [], .obj []⟩) ∧
    (∀ i c r, Reducer.init i c = .ok r →
       isPlainObject r.initialState = true ∧ isPlainObject r.cases = true) ∧
    (∀ (env : Env) r t p st r2 f, createAsyncAction env r t p st = .ok (r2, f) →
       r2.initialState = r.initialState ∧
       (isPlainObject r.cases = true → isPlainObject r2.cases = true)) := by
  refine ⟨fun i c h1 h2 => ?_, fun i c hi h1 h2 => ?_, rfl, fun i c r h => ?_,
    fun env r t p st r2 f h => ?_⟩
  · simp [Reducer.init, h1, h2]
  · simp [Reducer.init, hi, h1, h2]
  · by_cases hi : isPlainObject (if isUndefined i then JVal.obj [] else i)
    · by_cases hc : isPlainObject (if isUndefined c then JVal.obj [] else c)
      · simp [Reducer.init, hi, hc] at h
        rw [← h]
        exact ⟨hi, hc⟩
      · simp [Reducer.init, hi, hc] at h
    · simp [Reducer.init, hi] at h
  · by_cases h1 : isString t
    · by_cases h2 : isFunction p
      · simp [createAsyncAction, h1, h2] at h
        obtain ⟨hr2, hf⟩ := h
        subst hr2
        cases st with
        | none => exact ⟨rfl, fun hh => hh⟩
        | some stv => exact ⟨rfl, fun _ => rfl⟩
      · simp [createAsyncAction, h1, h2] at h
    · simp [createAsyncAction, h1] at h

/-- Closed instances of `C7_invariant`: construction failures, the
defaulted construction, and invariant preservation through
`createAsyncAction`. -/
theorem C7_invariant_witness :
    Reducer.init (.str "nope") .undefined
      = .error ⟨.typeKind, "Reducer Init - A reducer initial state MUST be an object."⟩ ∧
    Reducer.init (.obj []) (.arr [])
      = .error ⟨.typeKind, "Reducer Init - Reducer cases MUST be an object."⟩ ∧
    (isPlainObject red0.initialState = true ∧ isPlainObject red0.cases = true) :=
  ⟨C7_invariant.1 (.str "nope") .undefined rfl rfl,
   C7_invariant.2.1 (.obj []) (.arr []) rfl rfl rfl,
   C7_invariant.2.2.2.1 (.obj []) (.obj []) red0 rfl⟩

/-- Claim C8: `createAction` fails with a `TypeKind` error on every
non-string type, and on a string type returns a constructor mapping a
payload (default null) to exactly the record `{type, payload}`. -/
theorem C8_createAction :
    (∀ t, isString t = false →
       createAction t
         = .error ⟨.typeKind, "Reducer Action Creator - Type must be a string."⟩) ∧
    (∀ s : String, ∃ f, createAction (.str s) = .ok f ∧
       ∀ p, f p = .obj [("type", .str s),
                        ("payload", if isUndefined p then .null else p)]) := by
  constructor
  · intro t ht
    simp [createAction, ht]
  · intro s
    refine ⟨_, rfl, fun p => ?_⟩
    show mkObj [("type", .str s), ("payload", _)] = _
    simp [mkObj, insertAll, setKey]

/-- Closed instances of `C8_createAction`: failure on a number type, and
the exact records built for the default and an explicit payload. -/
theorem C8_createAction_witness :
    createAction (.num 1)
      = .error ⟨.typeKind, "Reducer Action Creator - Type must be a string."⟩ ∧
    (∃ f, createAction (.str "X") = .ok f ∧
       ∀ p, f p = .obj [("type", .str "X"),
                        ("payload", if isUndefined p then .null else p)]) :=
  ⟨C8_createAction.1 (.num 1) rfl, C8_createAction.2 "X"⟩

/-- Claim C10: `createAsyncAction` validates before merging: on a
non-string type, or a string type with a non-callable promise, it fails
with a `TypeKind` error and produces no updated instance, so `cases` and
`initialState` are left exactly as they were (mutation is modelled by
the returned `Reducer`, and an error result returns none). -/
theorem C10_atomic :
    (∀ (env : Env) r type promise st, isString type = false →
       createAsyncAction env r type promise st
         = .error ⟨.typeKind, "Reducer Async Action Creator - Type must be a string."⟩) ∧
    (∀ (env : Env) r type promise st, isString type = true → isFunction promise = false →
       createAsyncAction env r type promise st
         = .error ⟨.typeKind, "Reducer Async Action Creator - Promise must be a function."⟩) := by
  constructor
  · intro env r type promise st h
    simp [createAsyncAction, h]
  · intro env r type promise st h1 h2
    simp [createAsyncAction, h1, h2]

/-- Closed instances of `C10_atomic`: a numeric type and a string
promise each fail with the `TypeKind` error. -/
theorem C10_atomic_witness :
    createAsyncAction env0 red0 (.num 7) (.func (.tag 0)) none
      = .error ⟨.typeKind, "Reducer Async Action Creator - Type must be a string."⟩ ∧
    createAsyncAction env0 red0 (.str "T") (.str "not a function") none
      = .error ⟨.typeKind, "Reducer Async Action Creator - Promise must be a function."⟩ :=
  ⟨C10_atomic.1 env0 red0 (.num 7) (.func (.tag 0)) none rfl,
   C10_atomic.2 env0 red0 (.str "T") (.str "not a function") none rfl rfl⟩

/-- The keys of the three-case table built by `getDefaultAsyncCase` have
no duplicates (it is a JS object). -/
theorem nodup_gdac (t ts tf : String) (st : String × String × String) :
    ((ownFields (getDefaultAsyncCase t ts tf st)).map Prod.fst).Nodup := by
  simp only [getDefaultAsyncCase, mkObj, ownFields]
  exact nodup_map_fst_insertAll _ [] (by simp)

/-- Claim C3: for a string type, callable promise and supplied states
triple, `createAsyncAction` merges the table built by
`getDefaultAsyncCase(type, type_SUCCESS, type_FAILURE, states)` into the
instance's `cases`, pre-existing entries winning on key collision; when
`states` is not supplied, `cases` is unchanged. -/
theorem C3_merge (env : Env) (r : Reducer) (ty : String) (promise : JVal)
    (s0 s1 s2 : String) (cf : List (String × JVal))
    (hp : isFunction promise = true)
    (hc : r.cases = .obj cf) (hnd : (cf.map Prod.fst).Nodup) :
    (∃ r2 f, createAsyncAction env r (.str ty) promise (some (s0, s1, s2)) = .ok (r2, f) ∧
       ∀ k, getOwn r2.cases k =
         match lookupField cf k with
         | some v => some v
         | none => getOwn (getDefaultAsyncCase ty (ty ++ "_SUCCESS") (ty ++ "_FAILURE")
                     (s0, s1, s2)) k) ∧
    (∃ r3 g, createAsyncAction env r (.str ty) promise none = .ok (r3, g) ∧
       r3.cases = r.cases) := by
  constructor
  · refine ⟨{ r with cases := objSpread2 (getDefaultAsyncCase ty (ty ++ "_SUCCESS")
      (ty ++ "_FAILURE") (s0, s1, s2)) r.cases }, asyncCreator env promise ty,
      by simp [createAsyncAction, hp, strVal, isString], fun k => ?_⟩
    rw [hc]
    show lookupField (insertAll (insertAll []
      (ownFields (getDefaultAsyncCase ty (ty ++ "_SUCCESS") (ty ++ "_FAILURE") (s0, s1, s2))))
      cf) k = _
    rw [lookupField_insertAll cf _ k hnd,
      lookupField_insertAll_nil _ k (nodup_gdac ty (ty ++ "_SUCCESS") (ty ++ "_FAILURE")
        (s0, s1, s2))]
    rfl
  · exact ⟨{ r with cases := r.cases }, asyncCreator env promise ty,
      by simp [createAsyncAction, hp, strVal, isString], rfl⟩

/-- Closed instance of `C3_merge`: merging over a table that already has
the base key "T". -/
theorem C3_merge_witness :
    ∃ r2 f, createAsyncAction env0 ⟨.obj [], .obj [("T", .func (.tag 5))]⟩ (.str "T")
        (.func (.tag 0)) (some ("p", "q", "r")) = .ok (r2, f) ∧
      ∀ k, getOwn r2.cases k =
        match lookupField [("T", .func (.tag 5))] k with
        | some v => some v
        | none => getOwn (getDefaultAsyncCase "T" ("T" ++ "_SUCCESS") ("T" ++ "_FAILURE")
                    ("p", "q", "r")) k :=
  (C3_merge env0 ⟨.obj [], .obj [("T", .func (.tag 5))]⟩ "T" (.func (.tag 0))
    "p" "q" "r" [("T", .func (.tag 5))] rfl rfl (by simp)).1

/-- Claim C5: the `promise` field of a constructed async action, called
with a client, fails with a `TypeKind` error unless the client is
callable or object-like, and otherwise returns the wrapped promise
applied to `(client, payload)`; the factory and the constructor
themselves succeed with no client validation. -/
theorem C5_client (env : Env) (r : Reducer) (ty : String) (pf : JFun)
    (st : Option (String × String × String)) :
    ∃ r2 f, createAsyncAction env r (.str ty) (.func pf) st = .ok (r2, f) ∧
      ∀ payload client,
        ((isFunction client || isObjectLike client) = false →
           (f payload).promise client
             = .error ⟨.typeKind,
                 "Reducer Async Action Promise - Client must either be a function or a class."⟩) ∧
        ((isFunction client || isObjectLike client) = true →
           (f payload).promise client
             = .ok (applyFun env pf client (if isUndefined payload then .null else payload))) := by
  refine ⟨{ r with cases := match st with
      | some stv => objSpread2 (getDefaultAsyncCase ty (ty ++ "_SUCCESS")
          (ty ++ "_FAILURE") stv) r.cases
      | none => r.cases }, asyncCreator env (.func pf) ty,
    by cases st <;> simp [createAsyncAction, isString, isFunction, strVal],
    fun payload client => ?_⟩
  constructor
  · intro h
    rw [Bool.or_eq_false_iff] at h
    simp [asyncCreator, h.1, h.2]
  · intro h
    cases hf : isFunction client <;> cases ho : isObjectLike client <;>
      simp_all [asyncCreator, callF]

/-- Closed instance of `C5_client`: a numeric client is rejected at call
time of the inner promise, a record client is passed through to the
wrapped promise together with the payload. -/
theorem C5_client_witness :
    ∃ r2 f, createAsyncAction env0 red0 (.str "T") (.func (.tag 0)) none = .ok (r2, f) ∧
      (f .null).promise (.num 1)
        = .error ⟨.typeKind,
            "Reducer Async Action Promise - Client must either be a function or a class."⟩ ∧
      (f .null).promise (.obj [])
        = .ok (applyFun env0 (.tag 0) (.obj []) .null) := by
  obtain ⟨r2, f, heq, hall⟩ := C5_client env0 red0 "T" (.tag 0) none
  exact ⟨r2, f, heq, (hall .null (.num 1)).1 rfl, (hall .null (.obj [])).2 rfl⟩

/-- Looking up a key after three trailing literal assignments: the last
assignment of the key wins, otherwise the spread base answers. -/
theorem lookupField_insertAll3 (base : List (String × JVal)) (k0 k1 k2 : String)
    (v0 v1 v2 : JVal) (k : String) :
    lookupField (insertAll base [(k0, v0), (k1, v1), (k2, v2)]) k =
      if k2 = k then some v2 else if k1 = k then some v1 else if k0 = k then some v0
      else lookupField base k := by
  show lookupField (setKey (setKey (setKey base k0 v0) k1 v1) k2 v2) k = _
  rw [lookupField_setKey, lookupField_setKey, lookupField_setKey]

/-- Looking up a key after four trailing literal assignments. -/
theorem lookupField_insertAll4 (base : List (String × JVal)) (k0 k1 k2 k3 : String)
    (v0 v1 v2 v3 : JVal) (k : String) :
    lookupField (insertAll base [(k0, v0), (k1, v1), (k2, v2), (k3, v3)]) k =
      if k3 = k then some v3 else if k2 = k then some v2 else if k1 = k then some v1
      else if k0 = k then some v0 else lookupField base k := by
  show lookupField (setKey (setKey (setKey (setKey base k0 v0) k1 v1) k2 v2) k3 v3) k = _
  rw [lookupField_setKey, lookupField_setKey, lookupField_setKey, lookupField_setKey]

/-- The values of `setKey l k v` all come from `v` or from `l`. -/
theorem map_snd_setKey_subset (l : List (String × JVal)) (k : String) (v : JVal) :
    (setKey l k v).map Prod.snd ⊆ v :: l.map Prod.snd := by
  induction l with
  | nil =>
    intro x hx
    simp only [setKey, List.map_cons, List.map_nil] at hx
    simpa using hx
  | cons hd tl ih =>
    obtain ⟨k1, v1⟩ := hd
    intro x hx
    by_cases h1 : k1 = k
    · simp only [setKey, if_pos h1, List.map_cons] at hx
      rcases List.mem_cons.mp hx with rfl | hx
      · exact List.mem_cons_self _ _
      · exact List.mem_cons_of_mem _ (List.mem_cons_of_mem _ hx)
    · simp only [setKey, if_neg h1, List.map_cons] at hx
      rcases List.mem_cons.mp hx with rfl | hx
      · exact List.mem_cons_of_mem _ (List.mem_cons_self _ _)
      · rcases List.mem_cons.mp (ih hx) with rfl | hx2
        · exact List.mem_cons_self _ _
        · exact List.mem_cons_of_mem _ (List.mem_cons_of_mem _ hx2)

/-- Every value bound in the table built by `getDefaultAsyncCase` is one
of its three handlers, whatever the type-name collisions. -/
theorem snd_mem_gdac (t ts tf s0 s1 s2 : String) (kv : String × JVal)
    (h : kv ∈ ownFields (getDefaultAsyncCase t ts tf (s0, s1, s2))) :
    kv.2 = .func (.pending s0 s1 s2) ∨ kv.2 = .func (.success s0 s1 s2) ∨
      kv.2 = .func (.failure s0 s1 s2) := by
  have hmem : kv.2 ∈ (setKey (setKey [(t, JVal.func (.pending s0 s1 s2))] ts
      (JVal.func (.success s0 s1 s2))) tf (JVal.func (.failure s0 s1 s2))).map Prod.snd :=
    List.mem_map_of_mem Prod.snd h
  rcases List.mem_cons.mp (map_snd_setKey_subset _ tf _ hmem) with hF | h2
  · exact Or.inr (Or.inr hF)
  · rcases List.mem_cons.mp (map_snd_setKey_subset _ ts _ h2) with hS | h4
    · exact Or.inr (Or.inl hS)
    · simp only [List.map_cons, List.map_nil, List.mem_singleton] at h4
      exact Or.inl h4

/-- Claim C4 counterexample: the claim quantifies over every states
triple, but it fails on degenerate triples.  With `("p","p","p")` the
pending handler leaves the single flag key `"p"` false (the later
assignments of the object literal overwrite the earlier `true`); with
`("a","payload","b")` and payload `5`, the success handler's final
`payload` assignment overwrites the success flag, which ends up `5`, not
true. -/
theorem C4_flags_counterexample :
    getOwn (getDefaultAsyncCase "A" "A_S" "A_F" ("p", "p", "p")) "A"
      = some (.func (.pending "p" "p" "p")) ∧
    getOwn (applyFun env0 (.pending "p" "p" "p") (.obj []) .undefined) "p"
      ≠ some (.bool true) ∧
    getOwn (applyFun env0 (.success "a" "payload" "b") (.obj []) (.num 5)) "payload"
      ≠ some (.bool true) := by
  refine ⟨rfl, fun h => ?_, fun h => ?_⟩
  · have hc : getOwn (applyFun env0 (.pending "p" "p" "p") (.obj []) .undefined) "p"
        = some (.bool false) := rfl
    rw [hc] at h
    simp at h
  · have hc : getOwn (applyFun env0 (.success "a" "payload" "b") (.obj []) (.num 5)) "payload"
        = some (.num 5) := rfl
    rw [hc] at h
    simp at h

/-- Claim C4 (amended: for states triples of pairwise-distinct flag
names, none equal to the reserved keys `payload` or `error`): every
handler produced by `getDefaultAsyncCase` is one of the
pending/success/failure handlers, and on any incoming state record each
of the three maps exactly one of the flag keys `s0`, `s1`, `s2` to true
and the other two to false (pending: `s0`; success: `s1`; failure:
`s2`), regardless of the flag values already present in the state. -/
theorem C4_flags (env : Env) (t ts tf s0 s1 s2 : String)
    (h01 : s0 ≠ s1) (h02 : s0 ≠ s2) (h12 : s1 ≠ s2)
    (hp0 : s0 ≠ "payload") (hp1 : s1 ≠ "payload") (hp2 : s2 ≠ "payload")
    (he0 : s0 ≠ "error") (he1 : s1 ≠ "error") (he2 : s2 ≠ "error")
    (sf : List (String × JVal)) (a : JVal) :
    (∀ kv, kv ∈ ownFields (getDefaultAsyncCase t ts tf (s0, s1, s2)) →
       kv.2 = .func (.pending s0 s1 s2) ∨ kv.2 = .func (.success s0 s1 s2) ∨
         kv.2 = .func (.failure s0 s1 s2)) ∧
    (getOwn (applyFun env (.pending s0 s1 s2) (.obj sf) a) s0 = some (.bool true) ∧
     getOwn (applyFun env (.pending s0 s1 s2) (.obj sf) a) s1 = some (.bool false) ∧
     getOwn (applyFun env (.pending s0 s1 s2) (.obj sf) a) s2 = some (.bool false)) ∧
    (getOwn (applyFun env (.success s0 s1 s2) (.obj sf) a) s0 = some (.bool false) ∧
     getOwn (applyFun env (.success s0 s1 s2) (.obj sf) a) s1 = some (.bool true) ∧
     getOwn (applyFun env (.success s0 s1 s2) (.obj sf) a) s2 = some (.bool false)) ∧
    (getOwn (applyFun env (.failure s0 s1 s2) (.obj sf) a) s0 = some (.bool false) ∧
     getOwn (applyFun env (.failure s0 s1 s2) (.obj sf) a) s1 = some (.bool false) ∧
     getOwn (applyFun env (.failure s0 s1 s2) (.obj sf) a) s2 = some (.bool true)) := by
  have hpend : ∀ k, getOwn (applyFun env (.pending s0 s1 s2) (.obj sf) a) k
      = if s2 = k then some (.bool false) else if s1 = k then some (.bool false)
        else if s0 = k then some (.bool true)
        else lookupField (insertAll [] sf) k := by
    intro k
    show lookupField (insertAll (insertAll [] sf)
      [(s0, .bool true), (s1, .bool false), (s2, .bool false)]) k = _
    rw [lookupField_insertAll3]
  have hsucc : ∀ k, getOwn (applyFun env (.success s0 s1 s2) (.obj sf) a) k
      = if "payload" = k then some (if isUndefined a then .null else a)
        else if s2 = k then some (.bool false) else if s1 = k then some (.bool true)
        else if s0 = k then some (.bool false)
        else lookupField (insertAll [] sf) k := by
    intro k
    show lookupField (insertAll (insertAll [] sf)
      [(s0, .bool false), (s1, .bool true), (s2, .bool false),
       ("payload", if isUndefined a then .null else a)]) k = _
    rw [lookupField_insertAll4]
  have hfail : ∀ k, getOwn (applyFun env (.failure s0 s1 s2) (.obj sf) a) k
      = if "error" = k then some (if isUndefined a then .null else a)
        else if s2 = k then some (.bool true) else if s1 = k then some (.bool false)
        else if s0 = k then some (.bool false)
        else lookupField (insertAll [] sf) k := by
    intro k
    show lookupField (insertAll (insertAll [] sf)
      [(s0, .bool false), (s1, .bool false), (s2, .bool true),
       ("error", if isUndefined a then .null else a)]) k = _
    rw [lookupField_insertAll4]
  refine ⟨fun kv hkv => snd_mem_gdac t ts tf s0 s1 s2 kv hkv, ⟨?_, ?_, ?_⟩, ⟨?_, ?_, ?_⟩,
    ⟨?_, ?_, ?_⟩⟩
  · rw [hpend s0, if_neg (Ne.symm h02), if_neg (Ne.symm h01), if_pos rfl]
  · rw [hpend s1, if_neg (Ne.symm h12), if_pos rfl]
  · rw [hpend s2, if_pos rfl]
  · rw [hsucc s0, if_neg (Ne.symm hp0), if_neg (Ne.symm h02), if_neg (Ne.symm h01), if_pos rfl]
  · rw [hsucc s1, if_neg (Ne.symm hp1), if_neg (Ne.symm h12), if_pos rfl]
  · rw [hsucc s2, if_neg (Ne.symm hp2), if_pos rfl]
  · rw [hfail s0, if_neg (Ne.symm he0), if_neg (Ne.symm h02), if_neg (Ne.symm h01), if_pos rfl]
  · rw [hfail s1, if_neg (Ne.symm he1), if_neg (Ne.symm h12), if_pos rfl]
  · rw [hfail s2, if_neg (Ne.symm he2), if_pos rfl]

/-- Closed instance of `C4_flags` at the flags `("p","q","r")` over a
state that already carries stale flag values. -/
theorem C4_flags_witness :
    getOwn (applyFun env0 (.pending "p" "q" "r")
        (.obj [("p", .bool false), ("q", .bool true)]) .undefined) "p"
      = some (.bool true) ∧
    getOwn (applyFun env0 (.success "p" "q" "r")
        (.obj [("p", .bool false), ("q", .bool true)]) .undefined) "q"
      = some (.bool true) ∧
    getOwn (applyFun env0 (.failure "p" "q" "r")
        (.obj [("p", .bool false), ("q", .bool true)]) .undefined) "r"
      = some (.bool true) :=
  ⟨(C4_flags env0 "A" "AS" "AF" "p" "q" "r" (by decide) (by decide) (by decide)
      (by decide) (by decide) (by decide) (by decide) (by decide) (by decide)
      [("p", .bool false), ("q", .bool true)] .undefined).2.1.1,
   (C4_flags env0 "A" "AS" "AF" "p" "q" "r" (by decide) (by decide) (by decide)
      (by decide) (by decide) (by decide) (by decide) (by decide) (by decide)
      [("p", .bool false), ("q", .bool true)] .undefined).2.2.1.2.1,
   (C4_flags env0 "A" "AS" "AF" "p" "q" "r" (by decide) (by decide) (by decide)
      (by decide) (by decide) (by decide) (by decide) (by decide) (by decide)
      [("p", .bool false), ("q", .bool true)] .undefined).2.2.2.2.2⟩

/-- Claim C6 counterexample: the claim quantifies over all strings
`type`, `typeSuccess`, `typeFailure`; when they collide, the three
computed keys of the object literal collapse (last wins), so
`getDefaultAsyncCase "A" "A" "A"` has a single binding holding the
failure handler, and the handler found under the `type` key does not
behave as the claimed pending handler (it maps `states[0]` to false). -/
theorem C6_gdac_counterexample :
    ownFields (getDefaultAsyncCase "A" "A" "A" ("p", "q", "r"))
      = [("A", .func (.failure "p" "q" "r"))] ∧
    getOwn (applyFun env0 (.failure "p" "q" "r") (.obj []) .undefined) "p"
      ≠ some (.bool true) := by
  refine ⟨rfl, fun h => ?_⟩
  have hc : getOwn (applyFun env0 (.failure "p" "q" "r") (.obj []) .undefined) "p"
      = some (.bool false) := rfl
  rw [hc] at h
  simp at h

/-- Claim C6 (amended: for pairwise-distinct `type`, `typeSuccess`,
`typeFailure`): `getDefaultAsyncCase` returns a record with exactly the
three keys bound to the pending, success and failure handlers; on a
state record, the pending handler returns the state sequentially merged
with `states[0]:true, states[1]:false, states[2]:false`; the success
handler merges `states[0]:false, states[1]:true, states[2]:false` and
then attaches its second argument (default null) under `payload`; the
failure handler merges `states[0]:false, states[1]:false,
states[2]:true` and then attaches its second argument (default null)
under `error`; an undefined state argument defaults to the empty
record. -/
theorem C6_gdac (env : Env) (t ts tf s0 s1 s2 : String)
    (htts : t ≠ ts) (httf : t ≠ tf) (htstf : ts ≠ tf)
    (sf : List (String × JVal)) (hnd : (sf.map Prod.fst).Nodup) :
    ownFields (getDefaultAsyncCase t ts tf (s0, s1, s2))
      = [(t, .func (.pending s0 s1 s2)), (ts, .func (.success s0 s1 s2)),
         (tf, .func (.failure s0 s1 s2))] ∧
    (∀ a k, getOwn (applyFun env (.pending s0 s1 s2) (.obj sf) a) k
       = if s2 = k then some (.bool false) else if s1 = k then some (.bool false)
         else if s0 = k then some (.bool true) else lookupField sf k) ∧
    (∀ a k, getOwn (applyFun env (.success s0 s1 s2) (.obj sf) a) k
       = if "payload" = k then some (if isUndefined a then .null else a)
         else if s2 = k then some (.bool false) else if s1 = k then some (.bool true)
         else if s0 = k then some (.bool false) else lookupField sf k) ∧
    (∀ a k, getOwn (applyFun env (.failure s0 s1 s2) (.obj sf) a) k
       = if "error" = k then some (if isUndefined a then .null else a)
         else if s2 = k then some (.bool true) else if s1 = k then some (.bool false)
         else if s0 = k then some (.bool false) else lookupField sf k) ∧
    (∀ h a, applyFun env h .undefined a = applyFun env h (.obj []) a ∨
       ∃ n, h = .tag n) := by
  refine ⟨?_, fun a k => ?_, fun a k => ?_, fun a k => ?_, fun h a => ?_⟩
  · show setKey (setKey [(t, JVal.func (.pending s0 s1 s2))] ts
      (JVal.func (.success s0 s1 s2))) tf (JVal.func (.failure s0 s1 s2)) = _
    simp [setKey, htts, httf, htstf]
  · show lookupField (insertAll (insertAll [] sf)
      [(s0, .bool true), (s1, .bool false), (s2, .bool false)]) k = _
    rw [lookupField_insertAll3, lookupField_insertAll_nil sf k hnd]
  · show lookupField (insertAll (insertAll [] sf)
      [(s0, .bool false), (s1, .bool true), (s2, .bool false),
       ("payload", if isUndefined a then .null else a)]) k = _
    rw [lookupField_insertAll4, lookupField_insertAll_nil sf k hnd]
  · show lookupField (insertAll (insertAll [] sf)
      [(s0, .bool false), (s1, .bool false), (s2, .bool true),
       ("error", if isUndefined a then .null else a)]) k = _
    rw [lookupField_insertAll4, lookupField_insertAll_nil sf k hnd]
  · cases h with
    | tag n => exact Or.inr ⟨n, rfl⟩
    | pending p0 p1 p2 => exact Or.inl rfl
    | success p0 p1 p2 => exact Or.inl rfl
    | failure p0 p1 p2 => exact Or.inl rfl

/-- Closed instance of `C6_gdac` at `("A","S","F")` and flags
`("p","q","r")`: the exact key list, and the success handler's output on
a one-field state with an explicit payload. -/
theorem C6_gdac_witness :
    ownFields (getDefaultAsyncCase "A" "S" "F" ("p", "q", "r"))
      = [("A", .func (.pending "p" "q" "r")), ("S", .func (.success "p" "q" "r")),
         ("F", .func (.failure "p" "q" "r"))] ∧
    getOwn (applyFun env0 (.success "p" "q" "r") (.obj [("keep", .num 9)]) (.num 5)) "payload"
      = some (.num 5) ∧
    getOwn (applyFun env0 (.success "p" "q" "r") (.obj [("keep", .num 9)]) (.num 5)) "keep"
      = some (.num 9) := by
  have hinst := C6_gdac env0 "A" "S" "F" "p" "q" "r" (by decide) (by decide) (by decide)
    [("keep", .num 9)] (by simp)
  refine ⟨hinst.1, ?_, ?_⟩
  · rw [hinst.2.2.1 (.num 5) "payload"]
    rfl
  · rw [hinst.2.2.1 (.num 5) "keep"]
    rfl

/-- Claim C9: a success (resp. failure) handler generated by
`getDefaultAsyncCase`, registered in the case table and invoked through
the bound dispatch function, receives the entire action record as its
second argument, so it stores the whole action under `payload` (resp.
`error`), not the action's `payload` field. -/
theorem C9_wholeAction (env : Env) (r : Reducer) (sf af cf : List (String × JVal))
    (t s0 s1 s2 : String)
    (hc : r.cases = .obj cf) (hnd : (cf.map Prod.fst).Nodup)
    (hat : lookupField af "type" = some (.str t)) (ht : t ≠ "") :
    ((t, JVal.func (.success s0 s1 s2)) ∈ cf →
       ∃ out, bindReducer env r (.obj sf) (.obj af) = (.ok out, [t]) ∧
         getOwn out "payload" = some (.obj af)) ∧
    ((t, JVal.func (.failure s0 s1 s2)) ∈ cf →
       ∃ out, bindReducer env r (.obj sf) (.obj af) = (.ok out, [t]) ∧
         getOwn out "error" = some (.obj af)) := by
  have htype : getField (.obj af) "type" = .str t := by
    simp [getField, getOwn, ownFields, hat]
  have hval := bindReducer_eq_runCases env r sf af cf t hc hat ht
  constructor
  · intro hmem
    refine ⟨applyFun env (.success s0 s1 s2) (.obj sf) (.obj af), ?_, ?_⟩
    · rw [hval]
      exact runCases_found env cf _ _ t htype hnd _ hmem
    · show lookupField (insertAll (insertAll [] sf)
        [(s0, .bool false), (s1, .bool true), (s2, .bool false),
         ("payload", .obj af)]) "payload" = _
      rw [lookupField_insertAll4, if_pos rfl]
  · intro hmem
    refine ⟨applyFun env (.failure s0 s1 s2) (.obj sf) (.obj af), ?_, ?_⟩
    · rw [hval]
      exact runCases_found env cf _ _ t htype hnd _ hmem
    · show lookupField (insertAll (insertAll [] sf)
        [(s0, .bool false), (s1, .bool false), (s2, .bool true),
         ("error", .obj af)]) "error" = _
      rw [lookupField_insertAll4, if_pos rfl]

/-- Closed instance of `C9_wholeAction`: dispatching a success action
whose `payload` field is `5` stores the whole action record — not `5` —
under `payload`. -/
theorem C9_wholeAction_witness :
    (∃ out, bindReducer env0 ⟨.obj [], .obj [("TS", .func (.success "p" "q" "r"))]⟩
        (.obj []) (.obj [("type", .str "TS"), ("payload", .num 5)])
        = (.ok out, ["TS"]) ∧
      getOwn out "payload" = some (.obj [("type", .str "TS"), ("payload", .num 5)])) ∧
    some (JVal.obj [("type", .str "TS"), ("payload", .num 5)]) ≠ some (JVal.num 5) := by
  refine ⟨(C9_wholeAction env0 ⟨.obj [], .obj [("TS", .func (.success "p" "q" "r"))]⟩
    [] [("type", .str "TS"), ("payload", .num 5)] [("TS", .func (.success "p" "q" "r"))]
    "TS" "p" "q" "r" rfl (by simp) rfl (by decide)).1 (by simp), by simp⟩

end ReducerSpec
